import Mathlib

/-
Verification of the CDSS core (bi-temporal measurement store, Mediator,
Rule Processor) against its natural-language specification.

The Python sources under backend/ are shallowly embedded:
  * ISO datetime strings ('YYYY-MM-DD HH:MM:SS') are totally ordered by
    string comparison, which coincides with chronological order; they are
    modelled as integers (`Int`).
  * SQLite rows become Lean structures; a table is a `List` of rows.
  * Fallible operations return `Except`.
  * Python `dict`s (which preserve insertion order) become association lists.
  * Numeric measurement values (Python floats obtained from decimal
    strings) are modelled as rationals (`ℚ`); the comparisons performed by
    the code are exact on the decimal literals involved.
-/

namespace CDSS

/-! ## Python string primitives used by the source -/

/-- Python `str(x)` on an optional string: `str(None)` is the literal
string `"None"`; on a present string it is the identity. -/
def pyStr : Option String → String
  | none => "None"
  | some s => s

/-- Python `str.strip()`: remove leading and trailing whitespace. -/
def pyStrip (s : String) : String :=
  ⟨(((s.data.dropWhile Char.isWhitespace).reverse.dropWhile Char.isWhitespace).reverse)⟩

/-- Python truthiness of a string: nonempty strings are truthy. -/
def truthy (s : String) : Bool := s ≠ ""

/-! ## Validator: patient-id syntax (businesslogic.validate_patient_id) -/

/-- Modelled from Python's built-in `str.isdigit` character test: it accepts
every Unicode character with the Digit or Decimal numeric type, a strict
superset of the ASCII digits.  Beyond the ASCII digits we enumerate the
non-ASCII digit code points exercised in this development: the
Arabic-Indic digits U+0660..U+0669 and the superscript digits U+00B2,
U+00B3 and U+00B9, all of which Python's `str.isdigit` accepts. -/
def pyDigitChar (c : Char) : Bool :=
  c.isDigit || (0x660 ≤ c.toNat && c.toNat ≤ 0x669) ||
    c.toNat = 0xB2 || c.toNat = 0xB3 || c.toNat = 0xB9

/-- Python `str.isdigit()`: true iff the string is nonempty and every
character is a digit character.  Strings are taken as character lists. -/
def pyIsDigit (s : List Char) : Bool := !s.isEmpty && s.all pyDigitChar

/-- `validate_patient_id` (businesslogic.py lines 24-31): raises unless
`patient_id.isdigit()` and `len(patient_id) == 9`; modelled as the
acceptance predicate. -/
def validatePatientId (s : List Char) : Bool := pyIsDigit s && s.length = 9

/-- An ASCII digit, the character class named by the specification. -/
def asciiDigit (c : Char) : Bool := c.isDigit

/-! ## Orchestrator: abstract_data (businesslogic.abstract_data) -/

/-- The per-patient loop of `abstract_data` (businesslogic.py lines
560-568): run the Mediator for each patient in turn, skipping empty
frames; any exception from a run is wrapped with the patient id and
re-raised immediately (lines 566-568), leaving the later patients
unprocessed. -/
def abstractLoop {α : Type} (mediate : String → Except String (List α)) :
    List String → Except String (List (List α))
  | [] => .ok []
  | p :: ps =>
    match mediate p with
    | .error e =>
        .error ("Exception in data abstraction for patient " ++ p ++ ": " ++ e)
    | .ok df =>
        match abstractLoop mediate ps with
        | .error e => .error e
        | .ok rest => .ok (if df.isEmpty then rest else df :: rest)

/-- `abstract_data` (businesslogic.py lines 533-587), after snapshot
normalisation: truncate AbstractedMeasurements, fetch all patients, fail
when there are none; run the Mediator per patient (each run may itself
raise — its exception is wrapped and re-raised, see `abstractLoop`),
keeping the non-empty frames; fail when every frame is empty; otherwise
persist the concatenation.  The row type is abstract: the failure logic
inspects only emptiness.  An `Except.error` result models the Python
`raise`, which happens before any row is persisted, so the truncated
table stays empty on that path. -/
def abstractData {α : Type} (patients : List String)
    (mediate : String → Except String (List α)) : Except String (List α) :=
  if patients.isEmpty then
    .error "No patients found in the database."
  else
    match abstractLoop mediate patients with
    | .error e => .error e
    | .ok results =>
        if results.isEmpty then
          .error "Your DB is empty at the requested snapshot so no abstractions were calculated."
        else
          .ok results.flatten

/-! ## Bi-temporal measurement store -/

/-- A row of the Measurements table.  Datetime columns are ISO strings in
the source, totally ordered by string comparison; modelled as `Int`. -/
structure MeasRow where
  patientId : String
  loincNum : String
  value : String
  unit : String
  validStart : Int
  tIns : Int
  tDel : Option Int
deriving DecidableEq

/-- The snapshot-visibility test exactly as the source composes it into
its queries (businesslogic.py lines 214-215, mediator.py lines 206-207):
SQL `TransactionInsertionTime <= S AND (TransactionDeletionTime IS NULL
OR TransactionDeletionTime > S)`. -/
def visibleB (s : Int) (m : MeasRow) : Bool :=
  decide (m.tIns ≤ s) &&
    (match m.tDel with
     | none => true
     | some d => decide (s < d))

/-- The specification's visibility predicate, from its words: a row is
visible at snapshot S iff TransactionInsertionTime ≤ S and
TransactionDeletionTime is NULL or greater than S. -/
def VisibleAt (s : Int) (m : MeasRow) : Prop :=
  m.tIns ≤ s ∧ (m.tDel = none ∨ ∃ d, m.tDel = some d ∧ s < d)

/-! ## History query (PatientRecord.search_history) -/

/-- The closed set of WHERE-clause fragments `search_history` composes
(businesslogic.py lines 177-216). -/
inductive HistFilter where
  | patientEq (pid : String)
  | loincEq (code : String)
  | componentLike (component : String)
  | startGe (t : Int)
  | endLe (t : Int)
  | insLe (s : Int)
  | delNullOrGt (s : Int)

/-- The WHERE clause built by `search_history`, fragment by fragment in
source order: always the patient filter; then one fragment per supplied
optional argument; finally the two snapshot-visibility fragments. -/
def historyFilters (pid : String) (loinc? component? : Option String)
    (startT? endT? : Option Int) (snapshot : Int) : List HistFilter :=
  [HistFilter.patientEq pid]
    ++ (match loinc? with | some c => [HistFilter.loincEq c] | none => [])
    ++ (match component? with | some c => [HistFilter.componentLike c] | none => [])
    ++ (match startT? with | some t => [HistFilter.startGe t] | none => [])
    ++ (match endT? with | some t => [HistFilter.endLe t] | none => [])
    ++ [HistFilter.insLe snapshot, HistFilter.delNullOrGt snapshot]

/-- Row-level meaning of each fragment.  `compLike c m` stands for the
SQL predicate `LOWER(l.Component) LIKE '%'||LOWER(?)||'%'` on the LOINC
row joined to `m`; it is kept a parameter because no claim exercises
it. -/
def evalFrag (compLike : String → MeasRow → Bool) (m : MeasRow) : HistFilter → Bool
  | .patientEq pid => m.patientId = pid
  | .loincEq c => m.loincNum = c
  | .componentLike c => compLike c m
  | .startGe t => t ≤ m.validStart
  | .endLe t => m.validStart ≤ t
  | .insLe s => m.tIns ≤ s
  | .delNullOrGt s =>
      match m.tDel with
      | none => true
      | some d => decide (s < d)

/-- Error kinds raised by the record service paths modelled here. -/
inductive StoreErr where
  | patientNotFound
  | dateOrderViolation
deriving DecidableEq

/-- The date-ordering validations of `search_history` (businesslogic.py
lines 173-175): start ≤ end, start ≤ snapshot, end ≤ snapshot whenever
both sides are present. -/
def datesOk (startT? endT? : Option Int) (snapshot : Int) : Bool :=
  (match startT?, endT? with | some a, some b => decide (a ≤ b) | _, _ => true) &&
    (match startT? with | some a => decide (a ≤ snapshot) | none => true) &&
    (match endT? with | some b => decide (b ≤ snapshot) | none => true)

/-- `PatientRecord.search_history` (businesslogic.py lines 146-226) after
input cleanup and datetime normalisation: existence check on the patient,
date-relation validation, then the SELECT with the composed WHERE clause.
Modelled from the spec: the base template get_history.sql returns the
measurement rows satisfying the WHERE clause — its LOINC join adds
display columns only (total under the schema's foreign key). -/
def searchHistory (patients : List String) (db : List MeasRow)
    (compLike : String → MeasRow → Bool) (pid : String)
    (loinc? component? : Option String) (startT? endT? : Option Int)
    (snapshot : Int) : Except StoreErr (List MeasRow) :=
  if pid ∈ patients then
    if datesOk startT? endT? snapshot then
      .ok (db.filter fun m =>
        (historyFilters pid loinc? component? startT? endT? snapshot).all
          (evalFrag compLike m))
    else .error .dateOrderViolation
  else .error .patientNotFound

/-! ## Update path: the two separately committed mutations (C1) -/

/-- Modelled from the spec: update_record_deletion_time.sql sets
`TransactionDeletionTime = TransactionTime` on the rows of the lineage
(PatientId, LoincNum, ValidStartTime) whose TransactionDeletionTime is
NULL or greater than TransactionTime (spec §4.4, update step 6a). -/
def stampDeletion (db : List MeasRow) (pid loinc : String) (vst t : Int) :
    List MeasRow :=
  db.map fun m =>
    if m.patientId == pid && m.loincNum == loinc && m.validStart == vst &&
        (match m.tDel with | none => true | some d => decide (t < d)) then
      { m with tDel := some t }
    else m

/-- Modelled from the spec: insert_measurement.sql appends a row with the
given fields, `TransactionInsertionTime = t` and `TransactionDeletionTime
= NULL` (spec §4.4, update step 6b). -/
def insertMeasurement (db : List MeasRow) (pid loinc v u : String) (vst t : Int) :
    List MeasRow :=
  db ++ [⟨pid, loinc, v, u, vst, t, none⟩]

/-- The two mutation statements ending `PatientRecord.update_measurement`
(businesslogic.py lines 419-429).  `DataAccess.execute_query` commits
after every single statement (dataaccess.py lines 83-84), so each element
of this list is a durably committed — hence observable — database state:
the first after the deletion-time stamp, the second after the insert. -/
def updateCommitStates (db : List MeasRow) (pid loinc newValue u : String)
    (vst t : Int) : List (List MeasRow) :=
  let db1 := stampDeletion db pid loinc vst t
  let db2 := insertMeasurement db1 pid loinc newValue u vst t
  [db1, db2]

/-- Every row of the lineage (pid, loinc, vst) is invisible at snapshot t
in the given state: the prior rows are all closed and nothing replaces
them. -/
def lineageInvisible (state : List MeasRow) (pid loinc : String) (vst t : Int) :
    Prop :=
  ∀ m ∈ state, m.patientId = pid → m.loincNum = loinc → m.validStart = vst →
    visibleB t m = false

/-- The state contains the freshly inserted lineage row: same valid-time
key, TransactionInsertionTime = t, TransactionDeletionTime = NULL. -/
def hasFreshRow (state : List MeasRow) (pid loinc : String) (vst t : Int) : Prop :=
  ∃ m ∈ state, m.patientId = pid ∧ m.loincNum = loinc ∧ m.validStart = vst ∧
    m.tIns = t ∧ m.tDel = none

/-- The concrete lineage used to exhibit the non-atomic update: one open
row, inserted at time 11 with valid-start 10 (spec scenario 1 rendered on
the integer time axis). -/
def updateDemoRow : MeasRow :=
  ⟨"100000001", "718-7", "14.2", "mmol/L", 10, 11, none⟩

/-! ## Mediator: interval merge (Mediator._merge_abstracted_intervals) -/

/-- An abstracted interval as held in the merge frame: the columns
LOINC-Code, Value, StartDateTime, EndDateTime. -/
structure MInterval where
  loinc : String
  value : String
  start : Int
  stop : Int
deriving DecidableEq

/-- The sort key of `df.sort_values(by=['LOINC-Code', 'StartDateTime',
'Value'])` (mediator.py line 243): lexicographic on (code, start,
value). -/
def rowLE (a b : MInterval) : Bool :=
  a.loinc < b.loinc ∨ (a.loinc = b.loinc ∧
    (a.start < b.start ∨ (a.start = b.start ∧ a.value ≤ b.value)))

/-- End-extension by the relevance window: `row['EndDateTime'] +=
timedelta(hours=relevance_hours)` (mediator.py line 251), applied to
every row as it is visited. -/
def extendStop (r : Int) (x : MInterval) : MInterval := { x with stop := x.stop + r }

/-- The row loop of `_merge_abstracted_intervals` (mediator.py lines
245-272), `cur` being the `current` interval: a row of the same code and
value that touches or overlaps `cur` merges into it (max of the ends);
any other row causes `cur` to be emitted — truncated to the row's start
when a row of the same code would overlap it — and to be replaced by the
row. -/
def mergeLoop (r : Int) (cur : MInterval) : List MInterval → List MInterval
  | [] => [cur]
  | row0 :: rest =>
    let row := extendStop r row0
    if cur.loinc = row.loinc ∧ cur.value = row.value ∧ row.start ≤ cur.stop then
      mergeLoop r { cur with stop := max cur.stop row.stop } rest
    else
      (if cur.loinc = row.loinc ∧ row.start < cur.stop then { cur with stop := row.start }
       else cur) :: mergeLoop r row rest

/-- `_merge_abstracted_intervals` (mediator.py lines 226-278): sort by
(LOINC-Code, StartDateTime, Value) — pandas sort_values is a stable merge
sort — then run the row loop, the first row (end already extended)
seeding `current`. -/
def mergeAbstracted (r : Int) (df : List MInterval) : List MInterval :=
  match df.mergeSort rowLE with
  | [] => []
  | row0 :: rest => mergeLoop r (extendStop r row0) rest

/-- Weak key order underlying the merge invariant: y's (code, start) key
is at or after c's. -/
def afterKey (c y : MInterval) : Prop :=
  c.loinc < y.loinc ∨ (c.loinc = y.loinc ∧ c.start ≤ y.start)

/-- Separation: when two intervals carry the same LOINC code, the earlier
one ends at or before the later one starts. -/
def sepK (x y : MInterval) : Prop := x.loinc = y.loinc → x.stop ≤ y.start

/-- Overlap of two intervals, read as half-open [start, stop): sharing a
single boundary point (the outcome of the truncation clause) is not an
overlap. -/
def Overlaps (x y : MInterval) : Prop := max x.start y.start < min x.stop y.stop

/-! ## Mediator: TAK classification (TAKRule.apply) -/

/-- A classification threshold (mediator.py lines 148-154): label with
optional inclusive minimum and exclusive maximum. -/
structure Threshold where
  label : String
  min? : Option ℚ
  max? : Option ℚ

/-- A TAK abstraction rule (mediator.py lines 35-56); the demographic
filters are not involved in the classification claim. -/
structure TAKRule where
  abstractionName : String
  loincCode : String
  goodBefore : Int
  goodAfter : Int
  thresholds : List Threshold

/-- A raw measurement row as seen by `TAKRule.apply`: its numeric value
(`float(row['Value'])`, exact on the decimal literals involved), its
ValidStartTime, and its frame index (`row.name`). -/
structure RawMeas where
  value : ℚ
  validStart : Int
  idx : Nat

/-- An abstracted interval record as emitted by `TAKRule.apply`
(mediator.py lines 101-107). -/
structure AbsRec where
  loincCode : String
  conceptName : String
  value : String
  start : Int
  stop : Int
deriving DecidableEq

/-- The threshold test (mediator.py lines 93-94): `(min is None or val >=
min) and (max is None or val < max)`. -/
def thresholdMatches (v : ℚ) (t : Threshold) : Bool :=
  (match t.min? with | none => true | some m => decide (m ≤ v)) &&
    (match t.max? with | none => true | some m => decide (v < m))

/-- Python truthiness of the `match` variable of `TAKRule.apply`: `None`
and the empty string are falsy, any other label truthy (line 98 tests
`if match:`). -/
def truthyLabel : Option String → Bool
  | none => false
  | some s => s ≠ ""

/-- `TAKRule.apply` (mediator.py lines 73-110) over the raw rows of the
rule's LoincCode: per row take the first matching threshold's label; when
the resulting `match` value is truthy, emit the interval `[ValidStartTime
− GoodBefore, ValidStartTime + GoodAfter]` with that label and add the
row's index to the used set. -/
def takApply (rule : TAKRule) : List RawMeas → List AbsRec × List Nat
  | [] => ([], [])
  | row :: rest =>
    let m : Option String :=
      (rule.thresholds.find? (thresholdMatches row.value)).map Threshold.label
    let res := takApply rule rest
    if truthyLabel m then
      (⟨rule.loincCode, rule.abstractionName, m.getD "",
          row.validStart - rule.goodBefore, row.validStart + rule.goodAfter⟩ :: res.1,
        row.idx :: res.2)
    else res

/-- Per-row emission as the amended claim C6 describes it: the interval
of the first matching threshold, provided that threshold's label is a
non-empty string. -/
def emitRec (rule : TAKRule) (row : RawMeas) : Option AbsRec :=
  match rule.thresholds.find? (thresholdMatches row.value) with
  | none => none
  | some th =>
      if th.label = "" then none
      else some ⟨rule.loincCode, rule.abstractionName, th.label,
        row.validStart - rule.goodBefore, row.validStart + rule.goodAfter⟩

/-- Per-row consumption as the amended claim C6 describes it: a row is
consumed iff its first matching threshold exists and has a non-empty
label. -/
def consumes (rule : TAKRule) (row : RawMeas) : Bool :=
  match rule.thresholds.find? (thresholdMatches row.value) with
  | none => false
  | some th => th.label ≠ ""

/-- A rule whose single threshold matches every value but carries the
empty-string label — Python-falsy, so `TAKRule.apply` drops it. -/
def emptyLabelRule : TAKRule :=
  ⟨"Hemoglobin State", "718-7", 12, 12, [⟨"", none, none⟩]⟩

/-- A raw measurement used to exercise `emptyLabelRule`. -/
def demoMeas : RawMeas := ⟨10, 100, 0⟩

/-! ## Mediator.run: unknown patient and empty-history guard (C10) -/

/-- A Patients-table row restricted to the parameters
GET_PATIENT_PARAMS_QUERY exposes to the Mediator (mediator.py lines
218-222): the id and the sex column. -/
structure PatientRow where
  patientId : String
  sex : String
deriving DecidableEq

/-- `Mediator._get_patient_records` (mediator.py lines 189-224): the
unknown-patient guard at lines 200-201 returns `([], {})` before anything
else runs.  For a REGISTERED patient the branch builds its filter list
(lines 204-209) — with no observable effect — and then evaluates the name
SEARCH_HISTORY_QUERY at line 211; that name is defined nowhere in this
source (backend_config.py exports only GET_HISTORY_QUERY), so Python
raises NameError before any row is read.  The error value carries the
NameError text (quotes elided); `db` and `snapshot` are kept as the
parameters the intended query would use. -/
def getPatientRecords (patients : List PatientRow) (db : List MeasRow)
    (pid : String) (snapshot : Int) :
    Except String (List MeasRow × List (String × String)) :=
  if (patients.map PatientRow.patientId).contains pid then
    .error "NameError: name SEARCH_HISTORY_QUERY is not defined"
  else .ok ([], [])

/-- The unified output schema of `Mediator.run` (mediator.py lines
306-308). -/
def unifiedColumns : List String :=
  ["PatientId", "LOINC-Code", "Concept Name", "Value", "StartDateTime",
    "EndDateTime", "Source"]

/-- Output of a Mediator run: the frame's column schema plus its rows. -/
structure MediatorOut (α : Type) where
  columns : List String
  rows : List α

/-- `Mediator.run` (mediator.py lines 281-308): retrieve the patient's
records — a call that raises for every registered patient (undefined
SEARCH_HISTORY_QUERY, see `getPatientRecords`) and the exception
propagates; when the retrieval returns and there are no rows — the
unknown-patient case — return the empty frame with the unified schema,
raising nothing.  The remainder of the pipeline (classification, merge,
untouched rows) is the continuation `rest`. -/
def mediatorRun {α : Type} (patients : List PatientRow) (db : List MeasRow)
    (rest : List MeasRow → List (String × String) → Except String (List α))
    (pid : String) (snapshot : Int) : Except String (MediatorOut α) :=
  match getPatientRecords patients db pid snapshot with
  | .error e => .error e
  | .ok pr =>
      if pr.1.isEmpty then .ok ⟨unifiedColumns, []⟩
      else (rest pr.1 pr.2).map fun rows => ⟨unifiedColumns, rows⟩

/-- The per-patient Mediator invocation as `abstract_data` performs it
(businesslogic.py line 564): `engine.run(patient_id, snapshot_date)`,
keeping the frame's rows (the dropna drops all-null columns only). -/
def mediateViaRun {α : Type} (patients : List PatientRow) (db : List MeasRow)
    (rest : List MeasRow → List (String × String) → Except String (List α))
    (snapshot : Int) (pid : String) : Except String (List α) :=
  (mediatorRun patients db rest pid snapshot).map MediatorOut.rows

/-! ## Rule Processor: AND and OR evaluation -/

/-- A condition body: ordered (parameter → allowed values) pairs (a
Python dict, insertion-ordered). -/
abbrev RuleCond := List (String × List String)

/-- Python `values.get(key, fallback)` over the Values mapping. -/
def lookupD {α : Type} (values : List (String × α)) (k : String) (fallback : α) : α :=
  match values.lookup k with
  | some v => v
  | none => fallback

/-- The parameter loop of `_apply_AND_rule` (rule_processor.py lines
291-299): a condition matches iff every pair has a non-null input that is
a member of its allowed list — the source's flag-and-break loop computes
exactly this conjunction. -/
def condMatchesAND (inputs : String → Option String) (cond : RuleCond) : Bool :=
  cond.all fun pa =>
    match inputs pa.1 with
    | none => false
    | some v => pa.2.contains v

/-- `_apply_AND_rule` (rule_processor.py lines 276-304): walk the
conditions in insertion order; on the first match return
`values.get(cond_id, fallback)`; no match returns the fallback. -/
def applyANDRule {α : Type} (rules : List (String × RuleCond))
    (values : List (String × α)) (fallback : α)
    (inputs : String → Option String) : α :=
  match rules with
  | [] => fallback
  | (cid, cond) :: rest =>
    if condMatchesAND inputs cond then lookupD values cid fallback
    else applyANDRule rest values fallback inputs

/-- The parameter loop of `_apply_OR_rule` (rule_processor.py lines
324-330): a condition matches when ANY pair has a non-null input in its
allowed list — the source breaks at the first such pair. -/
def condMatchesOR (inputs : String → Option String) (cond : RuleCond) : Bool :=
  cond.any fun pa =>
    match inputs pa.1 with
    | none => false
    | some v => pa.2.contains v

/-- The index-tracking loop of `_apply_OR_rule` (rule_processor.py lines
320-330): walk the conditions with their index, recording the condition
id whenever a condition matches at an index above the maximum seen. -/
def orScan (inputs : String → Option String) :
    List (String × RuleCond) → Nat → Int → Option String → Option String
  | [], _, _, best => best
  | (cid, cond) :: rest, idx, maxIdx, best =>
    if condMatchesOR inputs cond then
      if maxIdx < (idx : Int) then orScan inputs rest (idx + 1) (idx : Int) (some cid)
      else orScan inputs rest (idx + 1) maxIdx best
    else orScan inputs rest (idx + 1) maxIdx best

/-- `_apply_OR_rule` (rule_processor.py lines 307-332):
`values.get(matched_cond_id, fallback)`, the scan starting at index 0
with maximum −1 and no match recorded (a `None` id looks up to the
fallback). -/
def applyORRule {α : Type} (rules : List (String × RuleCond))
    (values : List (String × α)) (fallback : α)
    (inputs : String → Option String) : α :=
  match orScan inputs rules 0 (-1) none with
  | some cid => lookupD values cid fallback
  | none => fallback

/-- The highest-index condition whose OR test succeeds — the condition
the claim says an OR rule must select. -/
def lastMatching (inputs : String → Option String) :
    List (String × RuleCond) → Option (String × RuleCond)
  | [] => none
  | rc :: rest =>
    match lastMatching inputs rest with
    | some x => some x
    | none => if condMatchesOR inputs rc.2 then some rc else none

/-! ## Delete: concept resolution (C7) -/

/-- The error kinds of the delete-time concept resolver, named as in spec
section 7. -/
inductive ResolveErr where
  | unknownComponent
  | ambiguousComponent
  | loincMismatch
  | loincCodeNotFound
  | missingInput
deriving DecidableEq

/-- Modelled from the spec: get_loinc_by_component_from_measurements.sql
returns the distinct LoincNum values among the patient's measurement rows
with the given ValidStartTime that are visible at the snapshot and whose
joined LOINC component matches the searched name.  `compMatch` abstracts
the textual matching and `loincComp` the LOINC-dictionary join; the spec
fixes the (component, patientId, validStartTime, snapshot) parameters and
the visible-at-snapshot scope. -/
def loincByComponentFM (db : List MeasRow) (compMatch : String → String → Bool)
    (loincComp : String → String) (component pid : String) (vst snapshot : Int) :
    List String :=
  ((db.filter fun m => m.patientId == pid && m.validStart == vst &&
      visibleB snapshot m && compMatch component (loincComp m.loincNum)).map
    MeasRow.loincNum).dedup

/-- The concept-resolution block of `PatientRecord.delete_measurement`
(businesslogic.py lines 440-510), input cleanup included: the source
applies `str(...).strip()` to loinc_num and component WITHOUT testing for
None first (lines 450-451), so an absent argument becomes the truthy
literal string "None" before the three-way case split on which branch to
take. -/
def deleteResolveConcept (db : List MeasRow) (compMatch : String → String → Bool)
    (loincComp : String → String) (loincTable : List String) (pid : String)
    (vst snapshot : Int) (loinc? component? : Option String) :
    Except ResolveErr String :=
  let l := pyStrip (pyStr loinc?)
  let c := pyStrip (pyStr component?)
  if truthy l && truthy c then
    let ms := loincByComponentFM db compMatch loincComp c pid vst snapshot
    if ms.isEmpty then .error .unknownComponent
    else if ms.contains l then .ok l
    else .error .loincMismatch
  else if truthy c && !truthy l then
    match loincByComponentFM db compMatch loincComp c pid vst snapshot with
    | [] => .error .unknownComponent
    | [m] => .ok (pyStrip m)
    | _ :: _ :: _ => .error .ambiguousComponent
  else if truthy l then
    if loincTable.contains l then .ok l else .error .loincCodeNotFound
  else .error .missingInput

end CDSS

namespace CDSS

/-! ## Claim C9 -/

/-- C9, counterexample: the nine-character string `"12345678٩"`, whose last
character is the Arabic-Indic digit nine (U+0669) and hence not an ASCII
digit, is accepted by `validate_patient_id`, whereas the claim says any
string containing a non-ASCII-digit character is rejected. -/
theorem C9_counterexample :
    validatePatientId ['1', '2', '3', '4', '5', '6', '7', '8', Char.ofNat 0x669] = true ∧
      ¬ (['1', '2', '3', '4', '5', '6', '7', '8', Char.ofNat 0x669].all asciiDigit = true) := by
  decide

/-- C9, amended: patient-id validation accepts `s` if and only if `s`
consists of exactly 9 characters each of which Python's `str.isdigit`
classifies as a digit — a strict superset of the ASCII digits (every
9-ASCII-digit string is still accepted). -/
theorem C9_amended_validate_iff (s : List Char) :
    validatePatientId s = true ↔ (s.length = 9 ∧ s.all pyDigitChar = true) := by
  cases s with
  | nil => simp [validatePatientId, pyIsDigit]
  | cons a t =>
      simp only [validatePatientId, pyIsDigit, List.isEmpty_cons, Bool.not_false,
        Bool.true_and, Bool.and_eq_true, decide_eq_true_eq]
      exact and_comm

/-! ## Claim C8 -/

/-- C8, counterexample: one registered patient whose Mediator run yields
no abstractions (empty Measurements table) — the configuration in which
the claim says `abstract_data` succeeds with an empty result set.  In
this source the per-patient run raises NameError (mediator.py line 211
reads the undefined name SEARCH_HISTORY_QUERY), the loop wraps it with
the patient id and re-raises (businesslogic.py lines 566-568), so the
call fails and the empty-results branch at lines 570-571 is never
reached. -/
theorem C8_counterexample_wrapped_nameerror :
    abstractData ["123456789"]
        (mediateViaRun [⟨"123456789", "Female"⟩] []
          (fun _ _ => Except.ok ([] : List Nat)) 20) =
      .error ("Exception in data abstraction for patient 123456789: NameError: name SEARCH_HISTORY_QUERY is not defined") := by
  rfl

/-- C8, amended: `abstract_data` fails when the database contains no
patients; and when patients exist it ALSO fails — every patient in the
loop comes from the Patients table and is therefore registered, so the
first patient's Mediator run raises the NameError for the undefined
SEARCH_HISTORY_QUERY, which is wrapped with the patient id and re-raised;
the empty-abstractions check (businesslogic.py lines 570-571) is
unreachable and the run never succeeds. -/
theorem C8_amended_never_succeeds {α : Type} (prows : List PatientRow)
    (db : List MeasRow)
    (rest : List MeasRow → List (String × String) → Except String (List α))
    (snapshot : Int) :
    (prows = [] →
      abstractData (prows.map PatientRow.patientId)
          (mediateViaRun prows db rest snapshot) =
        .error "No patients found in the database.") ∧
    (prows ≠ [] →
      ∃ e, abstractData (prows.map PatientRow.patientId)
          (mediateViaRun prows db rest snapshot) = .error e) := by
  constructor
  · rintro rfl
    rfl
  · intro hne
    cases prows with
    | nil => exact absurd rfl hne
    | cons p ps =>
        have hc : (((p :: ps).map PatientRow.patientId).contains p.patientId) = true :=
          List.elem_eq_true_of_mem (List.mem_map.mpr ⟨p, List.mem_cons_self p ps, rfl⟩)
        have hm : mediateViaRun (p :: ps) db rest snapshot p.patientId =
            .error "NameError: name SEARCH_HISTORY_QUERY is not defined" := by
          unfold mediateViaRun mediatorRun getPatientRecords
          rw [hc]
          rfl
        refine ⟨"Exception in data abstraction for patient " ++ p.patientId ++
          ": " ++ "NameError: name SEARCH_HISTORY_QUERY is not defined", ?_⟩
        simp [abstractData, abstractLoop, hm]

/-- Closed instance of C8 (amended): the empty Patients table fails with
the no-patients error, and a one-patient table fails as well. -/
theorem C8_amended_witness :
    (abstractData (([] : List PatientRow).map PatientRow.patientId)
        (mediateViaRun [] [] (fun _ _ => Except.ok ([] : List Nat)) 0) =
      .error "No patients found in the database.") ∧
    (∃ e, abstractData ([⟨"123456789", "Female"⟩].map PatientRow.patientId)
        (mediateViaRun [⟨"123456789", "Female"⟩] []
          (fun _ _ => Except.ok ([] : List Nat)) 0) = .error e) :=
  ⟨(C8_amended_never_succeeds [] []
      (fun _ _ => Except.ok ([] : List Nat)) 0).1 rfl,
    (C8_amended_never_succeeds [⟨"123456789", "Female"⟩] []
      (fun _ _ => Except.ok ([] : List Nat)) 0).2 (by simp)⟩

/-! ## Claim C1 -/

/-- C1: the deletion-time stamp and the subsequent insert of
`update_measurement` are NOT atomic.  Because `DataAccess.execute_query`
commits each statement separately, the state after the first commit is
observable, and in it the prior lineage rows are closed (no row of the
valid-time key is visible at the transaction time) while the new row has
not been inserted — exactly the outcome the claim rules out.  Evaluated
at a concrete one-row lineage updated at transaction time 20. -/
theorem C1_intermediate_commit_breaks_atomicity :
    ∃ s ∈ updateCommitStates [updateDemoRow] "100000001" "718-7" "14.5" "mmol/L" 10 20,
      lineageInvisible s "100000001" "718-7" 10 20 ∧
        ¬ hasFreshRow s "100000001" "718-7" 10 20 := by
  refine ⟨stampDeletion [updateDemoRow] "100000001" "718-7" 10 20, by
    simp [updateCommitStates], ?_, ?_⟩
  · unfold lineageInvisible
    decide
  · unfold hasFreshRow
    decide

/-! ## Claim C2 -/

/-- C2: for a registered patient and any snapshot, the history query with
no optional filters returns exactly the measurement rows of that patient
satisfying TransactionInsertionTime ≤ S and (TransactionDeletionTime IS
NULL or > S) — i.e. the rows visible at the snapshot, no more and no
fewer. -/
theorem C2_history_no_filters_exactly_visible (patients : List String)
    (db : List MeasRow) (compLike : String → MeasRow → Bool) (pid : String)
    (s : Int) (h : pid ∈ patients) :
    ∃ rows, searchHistory patients db compLike pid none none none none s = .ok rows ∧
      ∀ m, m ∈ rows ↔ (m ∈ db ∧ m.patientId = pid ∧ VisibleAt s m) := by
  refine ⟨db.filter (fun m =>
      (historyFilters pid none none none none s).all (evalFrag compLike m)), ?_, ?_⟩
  · simp [searchHistory, h, datesOk]
  intro m
  simp only [List.mem_filter, historyFilters, List.nil_append, List.cons_append,
    List.all_cons, List.all_nil, evalFrag, Bool.and_eq_true, decide_eq_true_eq,
    Bool.and_true, VisibleAt]
  constructor
  · rintro ⟨hdb, hpid, hins, hdel⟩
    refine ⟨hdb, hpid, hins, ?_⟩
    cases hd : m.tDel with
    | none => exact Or.inl rfl
    | some d =>
        rw [hd] at hdel
        exact Or.inr ⟨d, rfl, by simpa using hdel⟩
  · rintro ⟨hdb, hpid, hins, hdel⟩
    refine ⟨hdb, hpid, hins, ?_⟩
    cases hd : m.tDel with
    | none => simp
    | some d =>
        rcases hdel with h0 | ⟨d', hd', hlt⟩
        · exact absurd (hd ▸ h0) (by simp)
        · rw [hd] at hd'
          simp only [Option.some.injEq] at hd'
          simp [hd' ▸ hlt]

/-- Closed instance of C2: a registered patient with a single open row,
queried with no optional filters at a snapshot after its insertion. -/
theorem C2_witness :
    ("100000001" ∈ ["100000001"]) ∧
      ∃ rows, searchHistory ["100000001"] [updateDemoRow] (fun _ _ => true)
          "100000001" none none none none 20 = .ok rows ∧
        ∀ m, m ∈ rows ↔
          (m ∈ [updateDemoRow] ∧ m.patientId = "100000001" ∧ VisibleAt 20 m) :=
  ⟨by decide, C2_history_no_filters_exactly_visible ["100000001"] [updateDemoRow]
    (fun _ _ => true) "100000001" 20 (by decide)⟩

/-! ## Claim C6 -/

/-- C6, counterexample: a threshold with unbounded range but empty-string
label matches the measurement (the classifier finds it), yet
`TAKRule.apply` emits no interval and does not consume the row, because
line 98's `if match:` treats the empty label as falsy — the claim says a
matching threshold always yields the interval and marks the row
consumed. -/
theorem C6_counterexample :
    (emptyLabelRule.thresholds.find? (thresholdMatches demoMeas.value)).isSome = true ∧
      takApply emptyLabelRule [demoMeas] = ([], []) := by
  exact ⟨rfl, rfl⟩

/-- C6, amended: for every TAK rule and raw row of its LoincCode,
classification selects the first threshold with `(min is null ∨ value ≥
min) ∧ (max is null ∨ value < max)`; when such a threshold exists AND its
label is a non-empty string, the emitted interval is exactly
`[ValidStartTime − GoodBefore, ValidStartTime + GoodAfter]` with that
label and the row is marked consumed; when no threshold matches — or the
matching threshold's label is the empty string — nothing is emitted and
the row is not consumed. -/
theorem C6_amended_apply_characterisation (rule : TAKRule) (rows : List RawMeas) :
    takApply rule rows =
      (rows.filterMap (emitRec rule), (rows.filter (consumes rule)).map RawMeas.idx) := by
  induction rows with
  | nil => rfl
  | cons row rest ih =>
    simp only [takApply, ih, List.filterMap_cons, List.filter_cons]
    cases hf : rule.thresholds.find? (thresholdMatches row.value) with
    | none => simp [emitRec, consumes, hf, truthyLabel]
    | some th =>
        by_cases hl : th.label = ""
        · simp [emitRec, consumes, hf, hl, truthyLabel]
        · simp [emitRec, consumes, hf, hl, truthyLabel]

/-! ## Claim C7 -/

/-- C7: `delete_measurement` called with the component alone (loinc_num
absent, i.e. None).  The patient's visible measurements resolve the
component to exactly one LoincNum, "718-7", so the claim requires the
deletion to proceed with that code; but the input cleanup stringifies the
absent loinc_num to the truthy literal "None", the both-provided branch
runs instead of the component-only branch, and the call fails with the
mismatch error. -/
theorem C7_absent_loinc_is_stringified :
    loincByComponentFM [updateDemoRow] (fun a b => a == b) (fun _ => "Hemoglobin")
        "Hemoglobin" "100000001" 10 20 = ["718-7"] ∧
      deleteResolveConcept [updateDemoRow] (fun a b => a == b) (fun _ => "Hemoglobin")
        ["718-7"] "100000001" 10 20 none (some "Hemoglobin") =
        .error .loincMismatch := by
  exact ⟨rfl, rfl⟩

/-! ## Claim C10 -/

/-- C10, counterexample: a REGISTERED patient with no measurement rows
visible at the snapshot (the Measurements table is empty).  The claim
says `Mediator.run` returns an empty result set and raises no error; in
this source the record retrieval raises NameError — mediator.py line 211
reads the undefined name SEARCH_HISTORY_QUERY — before any row is
returned. -/
theorem C10_counterexample_registered_raises :
    mediatorRun [⟨"123456789", "Female"⟩] ([] : List MeasRow)
        (fun _ _ => Except.ok ([] : List Nat)) "123456789" 0 =
      .error "NameError: name SEARCH_HISTORY_QUERY is not defined" := by
  rfl

/-- C10, amended: for every patient id absent from the Patients table,
`Mediator.run` returns the empty result set with the unified column
schema and raises no error — it never fails on an UNKNOWN patient; but
for every registered patient, in particular one with no visible rows at
the snapshot, the record retrieval raises the NameError for the undefined
name SEARCH_HISTORY_QUERY before returning rows, whatever the remainder
of the pipeline would do. -/
theorem C10_amended_unknown_only {α : Type} (patients : List PatientRow)
    (db : List MeasRow)
    (rest : List MeasRow → List (String × String) → Except String (List α))
    (pid : String) (snapshot : Int) :
    ((∀ p ∈ patients, p.patientId ≠ pid) →
      mediatorRun patients db rest pid snapshot = .ok ⟨unifiedColumns, []⟩) ∧
    ((∃ p ∈ patients, p.patientId = pid) →
      mediatorRun patients db rest pid snapshot =
        .error "NameError: name SEARCH_HISTORY_QUERY is not defined") := by
  constructor
  · intro h
    have hc : ((patients.map PatientRow.patientId).contains pid) = false := by
      cases hcc : (patients.map PatientRow.patientId).contains pid
      · rfl
      · exfalso
        rcases List.mem_map.mp (List.mem_of_elem_eq_true hcc) with ⟨q, hq, hqe⟩
        exact h q hq hqe
    unfold mediatorRun getPatientRecords
    rw [hc]
    rfl
  · rintro ⟨p, hp, hpe⟩
    have hc : ((patients.map PatientRow.patientId).contains pid) = true :=
      List.elem_eq_true_of_mem (List.mem_map.mpr ⟨p, hp, hpe⟩)
    unfold mediatorRun getPatientRecords
    rw [hc]
    rfl

/-- Closed instance of C10 (amended): an unknown patient gets the empty
frame even under a continuation that would fail if consulted, and a
registered patient's run raises the NameError. -/
theorem C10_amended_witness :
    ((∀ p ∈ ([] : List PatientRow), p.patientId ≠ "123456789") ∧
      mediatorRun [] [updateDemoRow]
          (fun _ _ => Except.error "never consulted") "123456789" 0 =
        .ok ⟨unifiedColumns, ([] : List Nat)⟩) ∧
    ((∃ p ∈ [PatientRow.mk "123456789" "Female"], p.patientId = "123456789") ∧
      mediatorRun [PatientRow.mk "123456789" "Female"] [updateDemoRow]
          (fun _ _ => Except.ok ([] : List Nat)) "123456789" 0 =
        .error "NameError: name SEARCH_HISTORY_QUERY is not defined") :=
  ⟨⟨by simp, (C10_amended_unknown_only [] [updateDemoRow]
      (fun _ _ => Except.error "never consulted") "123456789" 0).1 (by simp)⟩,
    ⟨⟨PatientRow.mk "123456789" "Female", by simp, rfl⟩,
      (C10_amended_unknown_only [PatientRow.mk "123456789" "Female"] [updateDemoRow]
        (fun _ _ => Except.ok ([] : List Nat)) "123456789" 0).2
        ⟨PatientRow.mk "123456789" "Female", by simp, rfl⟩⟩⟩

/-! ## Claim C4 -/

/-- Helper: `_apply_AND_rule` returns the Values entry of the first
matching condition, the fallback when none matches. -/
theorem applyANDRule_eq_findFirst {α : Type} (rules : List (String × RuleCond))
    (values : List (String × α)) (fallback : α)
    (inputs : String → Option String) :
    applyANDRule rules values fallback inputs =
      match rules.find? (fun rc => condMatchesAND inputs rc.2) with
      | some rc => lookupD values rc.1 fallback
      | none => fallback := by
  induction rules with
  | nil => rfl
  | cons rc rest ih =>
    obtain ⟨cid, cond⟩ := rc
    by_cases hc : condMatchesAND inputs cond
    · simp [applyANDRule, hc]
    · simp [applyANDRule, hc, ih]

/-- C4: AND evaluation walks the conditions in insertion order; a
condition matches iff every (param → allowed-values) pair has a non-null
input belonging to the allowed list; the first matching condition's
Values entry is returned, the fallback when none matches — and in
particular, when every condition requires some parameter whose resolved
input is null, the result is the FallbackValue. -/
theorem C4_and_rule_first_match (rules : List (String × RuleCond))
    (values : List (String × String)) (fallback : String)
    (inputs : String → Option String) :
    (applyANDRule rules values fallback inputs =
      match rules.find? (fun rc => condMatchesAND inputs rc.2) with
      | some rc => lookupD values rc.1 fallback
      | none => fallback) ∧
    ((∀ rc ∈ rules, ∃ pa ∈ rc.2, inputs pa.1 = none) →
      applyANDRule rules values fallback inputs = fallback) := by
  refine ⟨applyANDRule_eq_findFirst rules values fallback inputs, ?_⟩
  intro h
  have hnone : rules.find? (fun rc => condMatchesAND inputs rc.2) = none := by
    rw [List.find?_eq_none]
    intro rc hrc
    obtain ⟨pa, hpa, hnull⟩ := h rc hrc
    simp only [Bool.not_eq_true, condMatchesAND, List.all_eq_false]
    refine ⟨pa, hpa, ?_⟩
    rw [hnull]
  rw [applyANDRule_eq_findFirst rules values fallback inputs, hnone]

/-- Closed instance of C4: one condition requiring a parameter resolved
to null — the evaluation returns the fallback. -/
theorem C4_witness :
    (∀ rc ∈ [("c1", [("hemoglobin", ["Low"])])], ∃ pa ∈ rc.2,
        (fun _ => (none : Option String)) pa.1 = none) ∧
      applyANDRule [("c1", [("hemoglobin", ["Low"])])] [("c1", "Anemia")]
        "FALLBACK" (fun _ => none) = "FALLBACK" := by
  refine ⟨by decide, ?_⟩
  exact (C4_and_rule_first_match [("c1", [("hemoglobin", ["Low"])])]
    [("c1", "Anemia")] "FALLBACK" (fun _ => none)).2 (by decide)

/-! ## Claim C5 -/

/-- Helper: whether a condition matches under OR logic does not depend on
the order of its parameter pairs. -/
theorem condMatchesOR_perm (inputs : String → Option String)
    {c1 c2 : RuleCond} (h : c1.Perm c2) :
    condMatchesOR inputs c1 = condMatchesOR inputs c2 := by
  unfold condMatchesOR
  cases hc1 : c1.any (fun pa =>
      match inputs pa.1 with
      | none => false
      | some v => pa.2.contains v) <;>
    cases hc2 : c2.any (fun pa =>
      match inputs pa.1 with
      | none => false
      | some v => pa.2.contains v) <;> try rfl
  · rw [List.any_eq_false] at hc1
    rw [List.any_eq_true] at hc2
    obtain ⟨x, hx, hpx⟩ := hc2
    exact absurd hpx (hc1 x (h.mem_iff.mpr hx))
  · rw [List.any_eq_true] at hc1
    rw [List.any_eq_false] at hc2
    obtain ⟨x, hx, hpx⟩ := hc1
    exact absurd hpx (hc2 x (h.mem_iff.mp hx))

/-- Helper: the index-tracking scan of `_apply_OR_rule` ends on the
highest-index matching condition's id; the indices grow past every
recorded maximum, so the inner comparison always succeeds on a match. -/
theorem orScan_eq_lastMatching (inputs : String → Option String) :
    ∀ (rules : List (String × RuleCond)) (idx : Nat) (maxIdx : Int)
      (best : Option String), maxIdx < (idx : Int) →
      orScan inputs rules idx maxIdx best =
        (match lastMatching inputs rules with
         | some rc => some rc.1
         | none => best) := by
  intro rules
  induction rules with
  | nil =>
    intro idx maxIdx best _
    rfl
  | cons rc rest ih =>
    intro idx maxIdx best hlt
    obtain ⟨cid, cond⟩ := rc
    simp only [orScan, lastMatching]
    by_cases hc : condMatchesOR inputs cond
    · rw [if_pos hc, if_pos hlt, ih (idx + 1) (idx : Int) (some cid) (by push_cast; omega)]
      cases lastMatching inputs rest <;> simp [hc]
    · rw [if_neg hc, ih (idx + 1) maxIdx best (by push_cast; omega)]
      cases lastMatching inputs rest <;> simp [hc]

/-- Helper: `_apply_OR_rule` returns the Values entry of the last
matching condition, the fallback when none matches. -/
theorem applyORRule_eq_lastMatching {α : Type} (rules : List (String × RuleCond))
    (values : List (String × α)) (fallback : α)
    (inputs : String → Option String) :
    applyORRule rules values fallback inputs =
      match lastMatching inputs rules with
      | some rc => lookupD values rc.1 fallback
      | none => fallback := by
  unfold applyORRule
  rw [orScan_eq_lastMatching inputs rules 0 (-1) none (by norm_num)]
  cases lastMatching inputs rules <;> rfl

/-- Helper: replacing every condition's parameter list by a permutation
(same condition ids) leaves the selected condition id unchanged. -/
theorem lastMatching_congr (inputs : String → Option String)
    {r1 r2 : List (String × RuleCond)}
    (h : List.Forall₂ (fun a b => a.1 = b.1 ∧ a.2.Perm b.2) r1 r2) :
    (lastMatching inputs r1).map Prod.fst =
      (lastMatching inputs r2).map Prod.fst := by
  induction h with
  | nil => rfl
  | @cons a b l1 l2 hab htail ih =>
    simp only [lastMatching]
    cases hx : lastMatching inputs l1 with
    | some x =>
        cases hy : lastMatching inputs l2 with
        | some y =>
            rw [hx, hy] at ih
            simpa using ih
        | none =>
            rw [hx, hy] at ih
            simp at ih
    | none =>
        cases hy : lastMatching inputs l2 with
        | some y =>
            rw [hx, hy] at ih
            simp at ih
        | none =>
            rw [condMatchesOR_perm inputs hab.2]
            by_cases hc : condMatchesOR inputs b.2
            · simp [hc, hab.1]
            · simp [hc]

/-- C5: OR evaluation returns the Values entry of the highest-index
condition in which at least one parameter's non-null input value belongs
to that parameter's allowed list, the fallback when no condition has any
matching parameter; and the result is unchanged when each condition's
parameters are examined in any other order (modelled as a permutation of
each condition's pair list). -/
theorem C5_or_rule_highest_match (rules : List (String × RuleCond))
    (values : List (String × String)) (fallback : String)
    (inputs : String → Option String) :
    (applyORRule rules values fallback inputs =
      match lastMatching inputs rules with
      | some rc => lookupD values rc.1 fallback
      | none => fallback) ∧
    (∀ rules₂, List.Forall₂ (fun a b => a.1 = b.1 ∧ a.2.Perm b.2) rules rules₂ →
      applyORRule rules values fallback inputs =
        applyORRule rules₂ values fallback inputs) := by
  refine ⟨applyORRule_eq_lastMatching rules values fallback inputs, ?_⟩
  intro rules₂ h
  rw [applyORRule_eq_lastMatching rules values fallback inputs,
    applyORRule_eq_lastMatching rules₂ values fallback inputs]
  have hmap := lastMatching_congr inputs h
  cases hx : lastMatching inputs rules with
  | none =>
      rw [hx] at hmap
      cases hy : lastMatching inputs rules₂ with
      | none => rfl
      | some y =>
          rw [hy] at hmap
          simp at hmap
  | some x =>
      rw [hx] at hmap
      cases hy : lastMatching inputs rules₂ with
      | none =>
          rw [hy] at hmap
          simp at hmap
      | some y =>
          rw [hy] at hmap
          simp only [Option.map_some', Option.some.injEq] at hmap
          simp only [hmap]

/-- Closed instance of C5: a condition whose parameter pairs are listed
in the opposite order produces the same result. -/
theorem C5_witness :
    List.Forall₂ (fun a b => a.1 = b.1 ∧ a.2.Perm b.2)
        [("c1", [("hb", ["Low"]), ("wbc", ["High"])])]
        [("c1", [("wbc", ["High"]), ("hb", ["Low"])])] ∧
      applyORRule [("c1", [("hb", ["Low"]), ("wbc", ["High"])])]
          [("c1", "Severe")] "FB" (fun s => if s = "hb" then some "Low" else none) =
        applyORRule [("c1", [("wbc", ["High"]), ("hb", ["Low"])])]
          [("c1", "Severe")] "FB" (fun s => if s = "hb" then some "Low" else none) := by
  have hperm : ([("hb", ["Low"]), ("wbc", ["High"])] : RuleCond).Perm
      [("wbc", ["High"]), ("hb", ["Low"])] := List.Perm.swap _ _ _
  refine ⟨List.Forall₂.cons ⟨rfl, hperm⟩ List.Forall₂.nil, ?_⟩
  exact (C5_or_rule_highest_match [("c1", [("hb", ["Low"]), ("wbc", ["High"])])]
      [("c1", "Severe")] "FB" (fun s => if s = "hb" then some "Low" else none)).2
    [("c1", [("wbc", ["High"]), ("hb", ["Low"])])]
    (List.Forall₂.cons ⟨rfl, hperm⟩ List.Forall₂.nil)

/-! ## Claim C3: merge invariants -/

/-- Helper: the pandas sort key is transitive. -/
theorem rowLE_trans (a b c : MInterval) (hab : rowLE a b = true)
    (hbc : rowLE b c = true) : rowLE a c = true := by
  simp only [rowLE, decide_eq_true_eq] at hab hbc ⊢
  rcases hab with h1 | ⟨e1, h1⟩
  · rcases hbc with h2 | ⟨e2, h2⟩
    · exact Or.inl (lt_trans h1 h2)
    · exact Or.inl (lt_of_lt_of_eq h1 e2)
  · rcases hbc with h2 | ⟨e2, h2⟩
    · exact Or.inl (lt_of_eq_of_lt e1 h2)
    · refine Or.inr ⟨e1.trans e2, ?_⟩
      rcases h1 with s1 | ⟨t1, v1⟩
      · rcases h2 with s2 | ⟨t2, v2⟩
        · exact Or.inl (lt_trans s1 s2)
        · exact Or.inl (lt_of_lt_of_eq s1 t2)
      · rcases h2 with s2 | ⟨t2, v2⟩
        · exact Or.inl (lt_of_eq_of_lt t1 s2)
        · exact Or.inr ⟨t1.trans t2, le_trans v1 v2⟩

/-- Helper: the pandas sort key is total. -/
theorem rowLE_total (a b : MInterval) : (rowLE a b || rowLE b a) = true := by
  simp only [rowLE, Bool.or_eq_true, decide_eq_true_eq]
  rcases lt_trichotomy a.loinc b.loinc with h | h | h
  · exact Or.inl (Or.inl h)
  · rcases lt_trichotomy a.start b.start with h2 | h2 | h2
    · exact Or.inl (Or.inr ⟨h, Or.inl h2⟩)
    · rcases le_total a.value b.value with h3 | h3
      · exact Or.inl (Or.inr ⟨h, Or.inr ⟨h2, h3⟩⟩)
      · exact Or.inr (Or.inr ⟨h.symm, Or.inr ⟨h2.symm, h3⟩⟩)
    · exact Or.inr (Or.inr ⟨h.symm, Or.inl h2⟩)
  · exact Or.inr (Or.inl h)

/-- Helper: the sort key implies the weak (code, start) key order. -/
theorem rowLE_afterKey {a b : MInterval} (h : rowLE a b = true) : afterKey a b := by
  simp only [rowLE, decide_eq_true_eq] at h
  unfold afterKey
  rcases h with h | ⟨e, h⟩
  · exact Or.inl h
  · refine Or.inr ⟨e, ?_⟩
    rcases h with h | ⟨e2, -⟩
    · exact le_of_lt h
    · exact le_of_eq e2

/-- Helper: the weak key order is reflexive. -/
theorem afterKey_refl (a : MInterval) : afterKey a a :=
  Or.inr ⟨rfl, le_refl _⟩

/-- Helper: the weak key order is transitive. -/
theorem afterKey_trans {a b c : MInterval} (h1 : afterKey a b)
    (h2 : afterKey b c) : afterKey a c := by
  unfold afterKey at h1 h2 ⊢
  rcases h1 with h1 | ⟨e1, h1⟩
  · rcases h2 with h2 | ⟨e2, h2⟩
    · exact Or.inl (lt_trans h1 h2)
    · exact Or.inl (lt_of_lt_of_eq h1 e2)
  · rcases h2 with h2 | ⟨e2, h2⟩
    · exact Or.inl (lt_of_eq_of_lt e1 h2)
    · exact Or.inr ⟨e1.trans e2, le_trans h1 h2⟩

/-- Helper: the weak key order forces code order. -/
theorem afterKey_loinc_le {a b : MInterval} (h : afterKey a b) :
    a.loinc ≤ b.loinc := by
  unfold afterKey at h
  rcases h with h | ⟨e, -⟩
  · exact le_of_lt h
  · exact le_of_eq e

/-- Helper: the record updates performed by the merge loop touch only the
interval's end. -/
theorem extendStop_key (r : Int) (x : MInterval) :
    (extendStop r x).loinc = x.loinc ∧ (extendStop r x).start = x.start :=
  ⟨rfl, rfl⟩

/-- Helper, the heart of C3: along a run of the merge loop whose pending
rows are key-sorted at or after the current interval, every emitted
interval keys at or after `cur`, and the output is pairwise separated
within each LOINC code. -/
theorem mergeLoop_invariant (r : Int) (rest : List MInterval) :
    ∀ cur : MInterval, rest.Pairwise afterKey → (∀ y ∈ rest, afterKey cur y) →
      (∀ z ∈ mergeLoop r cur rest, afterKey cur z) ∧
        (mergeLoop r cur rest).Pairwise sepK := by
  induction rest with
  | nil =>
    intro cur _ _
    refine ⟨?_, ?_⟩
    · intro z hz
      simp only [mergeLoop, List.mem_singleton] at hz
      subst hz
      exact afterKey_refl _
    · simp [mergeLoop]
  | cons row0 rest ih =>
    intro cur hpw hcur
    have hpwt : rest.Pairwise afterKey := (List.pairwise_cons.mp hpw).2
    have hhead : ∀ y ∈ rest, afterKey row0 y := (List.pairwise_cons.mp hpw).1
    have hcr : afterKey cur (extendStop r row0) :=
      hcur row0 (List.mem_cons_self row0 rest)
    by_cases hm : cur.loinc = (extendStop r row0).loinc ∧
        cur.value = (extendStop r row0).value ∧
        (extendStop r row0).start ≤ cur.stop
    · have hstep : mergeLoop r cur (row0 :: rest) =
          mergeLoop r { cur with stop := max cur.stop (extendStop r row0).stop } rest := by
        simp only [mergeLoop]
        rw [if_pos hm]
      rw [hstep]
      exact ih { cur with stop := max cur.stop (extendStop r row0).stop } hpwt
        (fun y hy => hcur y (List.mem_cons_of_mem _ hy))
    · have hstep : mergeLoop r cur (row0 :: rest) =
          (if cur.loinc = (extendStop r row0).loinc ∧
              (extendStop r row0).start < cur.stop then
            { cur with stop := (extendStop r row0).start }
          else cur) :: mergeLoop r (extendStop r row0) rest := by
        simp only [mergeLoop]
        rw [if_neg hm]
      rw [hstep]
      set cur2 := (if cur.loinc = (extendStop r row0).loinc ∧
          (extendStop r row0).start < cur.stop then
        { cur with stop := (extendStop r row0).start }
      else cur) with hcur2
      have hres := ih (extendStop r row0) hpwt (fun y hy => hhead y hy)
      have hkey2 : cur2.loinc = cur.loinc ∧ cur2.start = cur.start := by
        rw [hcur2]
        by_cases ht : cur.loinc = (extendStop r row0).loinc ∧
            (extendStop r row0).start < cur.stop
        · rw [if_pos ht]
          exact ⟨rfl, rfl⟩
        · rw [if_neg ht]
          exact ⟨rfl, rfl⟩
      constructor
      · intro z hz
        rcases List.mem_cons.mp hz with rfl | hz'
        · exact Or.inr ⟨hkey2.1.symm, le_of_eq hkey2.2.symm⟩
        · exact afterKey_trans hcr (hres.1 z hz')
      · rw [List.pairwise_cons]
        refine ⟨?_, hres.2⟩
        intro z hz
        unfold sepK
        intro heq
        have hak := hres.1 z hz
        have hle : (extendStop r row0).loinc ≤ z.loinc := afterKey_loinc_le hak
        have hcz : cur.loinc = z.loinc := by rw [← hkey2.1]; exact heq
        have hcrow : cur.loinc = (extendStop r row0).loinc := by
          unfold afterKey at hcr
          rcases hcr with h | ⟨e, -⟩
          · exact absurd hcz (ne_of_lt (lt_of_lt_of_le h hle))
          · exact e
        have hrowz : (extendStop r row0).loinc = z.loinc := by
          rw [← hcrow]
          exact hcz
        have hstart : (extendStop r row0).start ≤ z.start := by
          unfold afterKey at hak
          rcases hak with h | ⟨-, hs⟩
          · exact absurd hrowz (ne_of_lt h)
          · exact hs
        have hstop : cur2.stop ≤ (extendStop r row0).start := by
          rw [hcur2]
          by_cases ht : cur.loinc = (extendStop r row0).loinc ∧
              (extendStop r row0).start < cur.stop
          · rw [if_pos ht]
          · rw [if_neg ht]
            have hnl : ¬ (extendStop r row0).start < cur.stop :=
              fun hlt => ht ⟨hcrow, hlt⟩
            exact le_of_not_lt hnl
        exact le_trans hstop hstart

/-- C3: in the Mediator's merged output, (1) for any fixed (LoincCode,
Value) the intervals are pairwise disjoint, and (2) for any fixed
LoincCode, intervals carrying different Values never overlap — the
earlier interval having been truncated to the later interval's start,
intervals are read as half-open so a shared boundary point is no
overlap. -/
theorem C3_merge_pairwise_disjoint (r : Int) (df : List MInterval) :
    (mergeAbstracted r df).Pairwise fun x y =>
      ((x.loinc = y.loinc ∧ x.value = y.value) → ¬ Overlaps x y) ∧
        ((x.loinc = y.loinc ∧ x.value ≠ y.value) → ¬ Overlaps x y) := by
  have hsorted := @List.sorted_mergeSort MInterval rowLE rowLE_trans rowLE_total df
  unfold mergeAbstracted
  cases hms : df.mergeSort rowLE with
  | nil => simp
  | cons row0 rest =>
    rw [hms] at hsorted
    have hpw : (row0 :: rest).Pairwise afterKey :=
      hsorted.imp fun h => rowLE_afterKey h
    have hinv := mergeLoop_invariant r rest (extendStop r row0)
      (List.pairwise_cons.mp hpw).2
      (fun y hy => (List.pairwise_cons.mp hpw).1 y hy)
    refine hinv.2.imp ?_
    intro x y hsep
    refine ⟨?_, ?_⟩
    · rintro ⟨hl, -⟩ hov
      have hsp := hsep hl
      unfold Overlaps at hov
      omega
    · rintro ⟨hl, -⟩ hov
      have hsp := hsep hl
      unfold Overlaps at hov
      omega

end CDSS
